import Mathlib

/-
Verification development for the BIC-MOBO resolution-extraction scripts
(src/objectives/BICHitAngReso.py, BICClustAngReso.py, BICClustEneReso.py).

The event-data records (podio frames) are embedded as plain structures over
exact rationals; the external numerical library (ROOT) appears either as an
explicit embedding where a claim is about its documented arithmetic
(histogram binning, FindFirstBinAbove / FindLastBinAbove / GetBinLowEdge),
or as an abstract function parameter where the claim does not depend on its
values (Eta / Phi / Theta geometry, Minuit fitting, GetX root finding,
GetMean / GetRMS / Integral statistics, sqrt).

Python floats are modelled as rationals: every claim settled here depends
only on comparisons, additions, subtractions and divisions of the stored
values, never on rounding behaviour.  Python exceptions (ValueError,
KeyError) are modelled with Except String.
-/

namespace BICMOBO

/-- A 3-vector with rational components, modelling ROOT.Math.XYZVector. -/
structure Vec3 where
  x : ℚ
  y : ℚ
  z : ℚ
deriving DecidableEq, Repr

/-- Componentwise difference of 3-vectors (rrec - rvtx in the cluster scripts). -/
def Vec3.sub (a b : Vec3) : Vec3 :=
  ⟨a.x - b.x, a.y - b.y, a.z - b.z⟩

/-- An MC truth particle (edm4hep MCParticle).  The field pid models the podio
object identity (ObjectID index): equality of podio handles compares identity,
which the hit script uses to match associations to the chosen primary. -/
structure Particle where
  pid : Nat
  pdg : Int
  status : Int
  mass : ℚ
  energy : ℚ
  momentum : Vec3
  vertex : Vec3
deriving DecidableEq, Repr

/-- A reconstructed calorimeter hit (edm4eic CalorimeterHit): energy, position
and integer layer index, plus the ObjectID index printed in warnings. -/
structure Hit where
  hid : Nat
  layer : Int
  energy : ℚ
  position : Vec3
deriving DecidableEq, Repr

/-- A reconstructed cluster: aggregate energy, position, and its hits. -/
structure Cluster where
  energy : ℚ
  position : Vec3
  hits : List Hit
deriving DecidableEq, Repr

/-- A truth-cluster association as used by BICHitAngReso.py: getSim() is
matched against the primary by identity, so only the sim ObjectID is kept;
getRec() is the cluster. -/
structure HitAssoc where
  simId : Nat
  reco : Cluster
deriving DecidableEq, Repr

/-- A truth-cluster association as used by the two cluster scripts, which read
pdg, momentum, vertex and mass directly off getSim(). -/
structure ClustAssoc where
  sim : Particle
  reco : Cluster
deriving DecidableEq, Repr

/-- One event frame for BICHitAngReso.py: the MCParticles collection and the
cluster-association collection.  (The raw hit collection fetched at line 202
is never used by the script body, so it is not modelled.) -/
structure HitEvent where
  mcpars : List Particle
  assocs : List HitAssoc
deriving DecidableEq, Repr

/-- The angular coordinate selector after sanitization. -/
inductive Coord
  | theta
  | eta
  | phi
deriving DecidableEq, Repr

/-- Warnings printed by the event loop of BICHitAngReso.py: the missing-primary
warning (line 217) and the bad-layer warning (line 252). -/
inductive Warn
  | noPrimary
  | badLayer (hid : Nat) (layer : Int)
deriving DecidableEq, Repr

-- per-layer maximum-energy tracking (BICHitAngReso.py lines 225-257) ---------

/-- State of the two per-event dictionaries of BICHitAngReso.py:
maxenes = {1:0.0, ..., 6:0.0} and maxhits = dict().
maxenes starts with keys exactly 1..6 and value 0.0 and is only ever assigned
at a key that was just read successfully, so its key set never changes: a
lookup raises KeyError exactly when the layer is outside 1..6.  That lets us
model maxenes as a total function (0 outside its key set is never observed,
because the KeyError branch fires first), and maxhits as an optional value per
layer (none = key absent). -/
structure LayerState where
  maxenes : Int → ℚ
  maxhits : Int → Option Hit

/-- Initial dictionary state: maxenes all 0.0 on keys 1..6, maxhits empty. -/
def initLayerState : LayerState :=
  ⟨fun _ => 0, fun _ => none⟩

/-- One iteration of the hit loop (lines 248-257): a hit with layer above 6 is
warned about and skipped; a hit with layer at most 6 reads maxenes[layer],
which raises KeyError when the layer is outside the key set 1..6; otherwise
the strict comparison hit.getEnergy() > maxenes[layer] decides whether both
dictionaries are updated at that layer. -/
def processHit (st : LayerState) (h : Hit) : Except String LayerState :=
  if 6 < h.layer then
    .ok st
  else if h.layer < 1 then
    .error "KeyError"
  else if st.maxenes h.layer < h.energy then
    .ok ⟨Function.update st.maxenes h.layer h.energy,
         Function.update st.maxhits h.layer (some h)⟩
  else
    .ok st

/-- The hit loop over a list of hits, threading the dictionary state and
propagating an uncaught KeyError. -/
def processHits (hits : List Hit) : Except String LayerState :=
  hits.foldlM processHit initLayerState

/-- Scan layers in the given order and return the first populated one with its
hit.  Applied to [1,2,3,4,5,6] this computes min(maxhits.keys()) together with
maxhits[minlayer] (lines 268-273): the key set of maxhits is contained in 1..6,
so its numeric minimum is the first populated layer scanning upward. -/
def firstPopFrom (st : LayerState) : List Int → Option (Int × Hit)
  | [] => none
  | l :: ls =>
    match st.maxhits l with
    | some h => some (l, h)
    | none => firstPopFrom st ls

/-- min(maxhits.keys()) and the corresponding hit; none models the ValueError
raised by min() on an empty collection. -/
def minPopLayer (st : LayerState) : Option (Int × Hit) :=
  firstPopFrom st [1, 2, 3, 4, 5, 6]

/-- The representative hit chosen from a list of associated hits: run the
per-layer maximum tracking, then take the maximum-energy hit of the most
upstream populated layer (lines 248-273).  The error cases are the uncaught
KeyError from the loop and the uncaught ValueError from min() on an empty
maxhits. -/
def selectRepresentative (hits : List Hit) : Except String Hit := do
  let st ← processHits hits
  match minPopLayer st with
  | some lh => .ok lh.2
  | none => .error "ValueError"

-- event-level processing, hit script (BICHitAngReso.py lines 199-281) --------

/-- Primary selection (lines 206-212): the first MC particle whose PDG code
matches the target and whose generator status is 1. -/
def findPrimary (pdg : Int) (pars : List Particle) : Option Particle :=
  pars.find? (fun p => p.pdg == pdg && p.status == 1)

/-- The hits fed to the per-layer maximum tracking for one event: the hits of
every association whose sim side is the chosen primary (identity match,
lines 240-248), in association order. -/
def eventHitList (primary : Particle) (assocs : List HitAssoc) : List Hit :=
  (assocs.filter (fun a => a.simId == primary.pid)).flatMap (fun a => a.reco.hits)

/-- The bad-layer warnings printed while scanning those hits (line 252). -/
def badLayerWarns (hits : List Hit) : List Warn :=
  (hits.filter (fun h => decide (6 < h.layer))).map (fun h => Warn.badLayer h.hid h.layer)

/-- One iteration of the event loop of BICHitAngReso.py (lines 199-281),
with the coordinate already resolved to a function angleOf standing for the
ROOT Theta / Eta / Phi computation on the hit position and on the particle
momentum.  Returns the residuals filled into hAngRes for this event (zero or
one) together with the warnings printed, or the uncaught Python exception
(KeyError from maxenes, ValueError from min on an empty maxhits) that aborts
the run.  cluster stays None exactly when no association matches the
primary. -/
def processHitEvent (angleOf : Vec3 → ℚ) (pdg : Int) (ev : HitEvent) :
    Except String (List ℚ × List Warn) :=
  match findPrimary pdg ev.mcpars with
  | none => .ok ([], [Warn.noPrimary])
  | some primary =>
    let hits := eventHitList primary ev.assocs
    let warns := badLayerWarns hits
    if (ev.assocs.filter (fun a => a.simId == primary.pid)).isEmpty then
      .ok ([], warns)
    else do
      let h ← selectRepresentative hits
      .ok ([angleOf h.position - angleOf primary.momentum], warns)

/-- Number of entries accumulated in hAngRes over a run of the event loop: an
uncaught exception aborts the loop, so later events contribute nothing, while
entries filled before the abort are already in the histogram. -/
def runHitEntries (angleOf : Vec3 → ℚ) (pdg : Int) : List HitEvent → Nat
  | [] => 0
  | ev :: evs =>
    match processHitEvent angleOf pdg ev with
    | .error _ => 0
    | .ok r => r.1.length + runHitEntries angleOf pdg evs

-- event-level processing, cluster scripts -------------------------------------

/-- np.finfo(float).eps, the double-precision machine epsilon, as an exact
rational. -/
def EPS : ℚ := 1 / 2 ^ 52

/-- The denominator used for the relative angular residual
(BICClustAngReso.py lines 112-114): the truth-side angular value, perturbed by
adding np.finfo(float).eps when it is exactly zero. -/
def clustDenom (asim : ℚ) : ℚ :=
  if asim = 0 then asim + EPS else asim

/-- One iteration of the association loop of BICClustAngReso.py
(lines 89-147): the association is used when its sim particle has the target
PDG code (generator status is not consulted); the truth angle comes from the
sim momentum, the reconstructed angle from the cluster position relative to
the sim start vertex, and the filled value is the relative residual.  angleOf
stands for the ROOT Eta / Phi computation for the selected coordinate (the
inner coordinate matches cannot reach their error arm because the coordinate
was validated before the event loop). -/
def processClustAssoc (angleOf : Vec3 → ℚ) (pdg : Int) (a : ClustAssoc) : Option ℚ :=
  if a.sim.pdg = pdg then
    let asim := clustDenom (angleOf a.sim.momentum)
    let arec := angleOf (Vec3.sub a.reco.position a.sim.vertex)
    some ((arec - asim) / asim)
  else
    none

/-- The residuals filled into hAngRes by one event of BICClustAngReso.py: one
per association whose sim particle matches the PDG code. -/
def clustEventFills (angleOf : Vec3 → ℚ) (pdg : Int) (assocs : List ClustAssoc) : List ℚ :=
  assocs.filterMap (processClustAssoc angleOf pdg)

/-- One iteration of the association loop of BICClustEneReso.py
(lines 68-86): same PDG-only selection; the truth energy is
sqrt(p2 + m2) (np.sqrt stands as the abstract parameter sqrtQ) and the filled
value is the relative energy residual. -/
def processEneAssoc (sqrtQ : ℚ → ℚ) (pdg : Int) (a : ClustAssoc) : Option ℚ :=
  if a.sim.pdg = pdg then
    let psim2 := a.sim.momentum.x ^ 2 + a.sim.momentum.y ^ 2 + a.sim.momentum.z ^ 2
    let esim := sqrtQ (psim2 + a.sim.mass ^ 2)
    some ((a.reco.energy - esim) / esim)
  else
    none

/-- The residuals filled into hEneRes by one event of BICClustEneReso.py. -/
def eneEventFills (sqrtQ : ℚ → ℚ) (pdg : Int) (assocs : List ClustAssoc) : List ℚ :=
  assocs.filterMap (processEneAssoc sqrtQ pdg)

-- histogram embedding (ROOT TH1D with fixed binning) --------------------------

/-- A fixed-binning 1-D histogram, as created by ROOT.TH1D(name, title,
nbins, xlo, xhi).  content is indexed by the ROOT bin number: 0 is underflow,
1..nbins are the in-range bins, nbins+1 is overflow. -/
structure TH1 where
  nbins : Nat
  xlo : ℚ
  xhi : ℚ
  content : Int → ℚ

/-- A freshly created empty histogram. -/
def mkTH1 (nbins : Nat) (xlo xhi : ℚ) : TH1 :=
  ⟨nbins, xlo, xhi, fun _ => 0⟩

/-- Fixed bin width. -/
def TH1.binWidth (h : TH1) : ℚ :=
  (h.xhi - h.xlo) / (h.nbins : ℚ)

/-- ROOT TAxis::FindBin for fixed binning: underflow below xlo, overflow at or
above xhi, otherwise 1 + floor((x - xlo) / width). -/
def TH1.findBin (h : TH1) (x : ℚ) : Int :=
  if x < h.xlo then 0
  else if h.xhi ≤ x then (h.nbins : Int) + 1
  else 1 + ⌊(x - h.xlo) / h.binWidth⌋

/-- TH1::Fill with unit weight. -/
def TH1.fill (h : TH1) (x : ℚ) : TH1 :=
  { h with content := Function.update h.content (h.findBin x) (h.content (h.findBin x) + 1) }

/-- Fill a list of values in order. -/
def TH1.fillAll (h : TH1) (xs : List ℚ) : TH1 :=
  xs.foldl TH1.fill h

/-- The in-range bin numbers 1..nbins in ascending order. -/
def TH1.binRange (h : TH1) : List Int :=
  (List.range h.nbins).map (fun (i : Nat) => (i : Int) + 1)

/-- TH1::FindFirstBinAbove(threshold): the smallest in-range bin whose content
exceeds the threshold, or -1 when there is none. -/
def TH1.findFirstBinAbove (h : TH1) (thr : ℚ) : Int :=
  match h.binRange.find? (fun i => decide (thr < h.content i)) with
  | some i => i
  | none => -1

/-- TH1::FindLastBinAbove(threshold): the largest in-range bin whose content
exceeds the threshold, or -1 when there is none. -/
def TH1.findLastBinAbove (h : TH1) (thr : ℚ) : Int :=
  match h.binRange.reverse.find? (fun i => decide (thr < h.content i)) with
  | some i => i
  | none => -1

/-- TAxis::GetBinLowEdge for fixed binning: xlo + (bin - 1) * width, defined
for every integer bin number exactly as ROOT computes it. -/
def TH1.binLowEdge (h : TH1) (i : Int) : ℚ :=
  h.xlo + (i - 1) * h.binWidth

/-- The fit window of BICHitAngReso.py (lines 302-306): from the low edge of
the first bin above zero content to the low edge of the bin after the last bin
above zero content. -/
def hitFitRange (h : TH1) : ℚ × ℚ :=
  (h.binLowEdge (h.findFirstBinAbove 0), h.binLowEdge (h.findLastBinAbove 0 + 1))

/-- Bin i is an in-range bin holding at least one entry. -/
def TH1.populatedBin (h : TH1) (i : Int) : Prop :=
  1 ≤ i ∧ i ≤ (h.nbins : Int) ∧ h.content i ≠ 0

/-- Modelled from the spec wording for the fit domain, for comparison with the
code's computation: the range from the lower edge of the first bin with any
entries to the upper edge of the last bin with any entries, or none when no
bin has entries. -/
def specNonzeroPopRange (h : TH1) : Option (ℚ × ℚ) :=
  match h.binRange.find? (fun i => decide (h.content i ≠ 0)),
        h.binRange.reverse.find? (fun i => decide (h.content i ≠ 0)) with
  | some f, some l => some (h.binLowEdge f, h.binLowEdge (l + 1))
  | _, _ => none

-- fit model embedding ----------------------------------------------------------

/-- The configuration handed to ROOT's fitter: TF1 formula, seed parameters
(SetParameters / SetParameter calls), explicit parameter limits (SetParLimits
calls, none are made by these scripts), and the TF1 range. -/
structure FitSpec where
  formula : String
  seeds : List ℚ
  limits : List (ℚ × ℚ)
  lo : ℚ
  hi : ℚ
deriving DecidableEq, Repr

/-- The fit model of BICHitAngReso.py (lines 295-300): a single Gaussian
"gaus(0)" on (-0.2, 0.2), seeded with SetParameters(integral, mean, rms); no
parameter limits are set. -/
def hitFitSpec (inthist muhist rmshist : ℚ) : FitSpec :=
  ⟨"gaus(0)", [inthist, muhist, rmshist], [], -(1/5), 1/5⟩

/-- The fit model of the two cluster scripts (BICClustAngReso.py lines
152-155, BICClustEneReso.py lines 91-94): a single Gaussian "gaus(0)" on
(-0.5, 0.5), seeded with the integral, mean and rms; no parameter limits. -/
def clustFitSpec (inthist muhist rmshist : ℚ) : FitSpec :=
  ⟨"gaus(0)", [inthist, muhist, rmshist], [], -(1/2), 1/2⟩

/-- Modelled from the spec wording of the two-Gaussian policy, for comparison
with the code's fit model: a mixture with six parameters, both component means
(parameters 1 and 4) bounded to within half the empirical RMS of the empirical
mean, and both component sigmas (parameters 2 and 5) bounded to [0, RMS]. -/
def IsTwoGaussBounded (muhist rmshist : ℚ) (fs : FitSpec) : Prop :=
  fs.seeds.length = 6 ∧
  fs.limits.length = 6 ∧
  fs.limits.get? 1 = some (muhist - rmshist / 2, muhist + rmshist / 2) ∧
  fs.limits.get? 4 = some (muhist - rmshist / 2, muhist + rmshist / 2) ∧
  fs.limits.get? 2 = some (0, rmshist) ∧
  fs.limits.get? 5 = some (0, rmshist)

/-- The state of a ROOT TF1 after Fit: fitted parameters and their errors, and
the Eval / GetX numerical routines.  All of this lives in ROOT; the scripts
only consume it, so a run is parameterized by the function the fitter
returns. -/
structure TF1Model where
  par : Nat → ℚ
  parError : Nat → ℚ
  evalAt : ℚ → ℚ
  getX : ℚ → ℚ → ℚ → ℚ

-- coordinate validation --------------------------------------------------------

/-- The coordinate dispatch of BICHitAngReso.py (lines 142-156): the input is
lower-cased, then matched against theta / eta / phi; anything else raises
ValueError before any histogram is created and before any event is read. -/
def parseCoordHit (s : String) : Except String Coord :=
  match s.toLower with
  | "theta" => .ok Coord.theta
  | "eta" => .ok Coord.eta
  | "phi" => .ok Coord.phi
  | _ => .error "ValueError: Unknown coordinate specified!"

/-- The coordinate dispatch of BICClustAngReso.py (lines 58-70): lower-cased,
then matched against eta / phi only. -/
def parseCoordClust (s : String) : Except String Coord :=
  match s.toLower with
  | "eta" => .ok Coord.eta
  | "phi" => .ok Coord.phi
  | _ => .error "ValueError: Unknown coordinate specified!"

-- full runs --------------------------------------------------------------------

/-- Observable outcome of a completed run of CalculateHitAngReso: the residuals
filled into hAngRes, the warnings printed, the fit model and fit window handed
to ROOT, the values written (one per line) to the text summary file, and the
value returned to the caller. -/
structure HitRunResult where
  fills : List ℚ
  warns : List Warn
  fitModel : FitSpec
  fitRange : ℚ × ℚ
  textLines : List ℚ
  returned : ℚ
deriving Repr

/-- CalculateHitAngReso (BICHitAngReso.py lines 104-338).  The coordinate is
validated first (lines 141-156); the event loop accumulates residuals and
warnings (lines 199-281); the post-loop fit seeds come from GetMean, GetRMS
and Integral (abstract parameter stats, returning (mean, rms, integral)); the
fit window is the nonzero-bin window (lines 302-307); the external Minuit fit
and the subsequent Eval / GetX root finding are the abstract parameter fitter;
the FWHM is the difference of the two half-maximum abscissae (lines 309-314);
the text file receives the single line fwhm (lines 333-335) and fwhm is
returned (line 338).  An uncaught exception anywhere aborts: nothing is
written and nothing is returned. -/
def CalculateHitAngReso (angleOf : Coord → Vec3 → ℚ)
    (stats : TH1 → ℚ × ℚ × ℚ)
    (fitter : TH1 → FitSpec → ℚ → ℚ → TF1Model)
    (coord : String) (pdg : Int) (events : List HitEvent) :
    Except String HitRunResult := do
  let c ← parseCoordHit coord
  let results ← events.mapM (processHitEvent (angleOf c) pdg)
  let fills := results.flatMap (fun r => r.1)
  let warns := results.flatMap (fun r => r.2)
  let hdiff := (mkTH1 80 (-(1/5)) (1/5)).fillAll fills
  let muhist := (stats hdiff).1
  let rmshist := (stats hdiff).2.1
  let inthist := (stats hdiff).2.2
  let fspec := hitFitSpec inthist muhist rmshist
  let rng := hitFitRange hdiff
  let fdiff := fitter hdiff fspec rng.1 rng.2
  let mumain := fdiff.par 1
  let maximum := fdiff.evalAt mumain
  let halfmaxLo := fdiff.getX (maximum / 2) rng.1 mumain
  let halfmaxHi := fdiff.getX (maximum / 2) mumain rng.2
  let fwhm := halfmaxHi - halfmaxLo
  .ok ⟨fills, warns, fspec, rng, [fwhm], fwhm⟩

/-- Observable outcome of a completed run of either cluster script. -/
structure ClustRunResult where
  fills : List ℚ
  fitModel : FitSpec
  fitRange : ℚ × ℚ
  textLines : List ℚ
  returned : ℚ
deriving Repr

/-- CalculateClustAngReso (BICClustAngReso.py lines 35-181).  The coordinate
is validated first (lines 58-70); the association loop accumulates one
residual per PDG-matching association (lines 83-147); the fit is a single
Gaussian seeded from Integral, GetMean and GetRMS, performed with option "r",
that is over the TF1 range (-0.5, 0.5) (lines 152-156); the text file receives
the four lines sigma, sigma error, mean, mean error (lines 167-178) and the
fitted sigma is returned (line 181). -/
def CalculateClustAngReso (angleOf : Coord → Vec3 → ℚ)
    (stats : TH1 → ℚ × ℚ × ℚ)
    (fitter : TH1 → FitSpec → ℚ → ℚ → TF1Model)
    (coord : String) (pdg : Int) (events : List (List ClustAssoc)) :
    Except String ClustRunResult := do
  let c ← parseCoordClust coord
  let fills := events.flatMap (clustEventFills (angleOf c) pdg)
  let hres := (mkTH1 50 (-2) 3).fillAll fills
  let muhist := (stats hres).1
  let rmshist := (stats hres).2.1
  let inthist := (stats hres).2.2
  let fspec := clustFitSpec inthist muhist rmshist
  let fres := fitter hres fspec fspec.lo fspec.hi
  let reso := fres.par 2
  let eres := fres.parError 2
  let mean := fres.par 1
  let emea := fres.parError 1
  .ok ⟨fills, fspec, (fspec.lo, fspec.hi), [reso, eres, mean, emea], fres.par 2⟩

/-- CalculateClustEneReso (BICClustEneReso.py lines 32-120).  No coordinate
selector exists; otherwise the shape is that of CalculateClustAngReso with the
energy residual, the same fixed-range single-Gaussian fit (lines 91-95) and
the same four-line text summary (lines 106-117). -/
def CalculateClustEneReso (sqrtQ : ℚ → ℚ)
    (stats : TH1 → ℚ × ℚ × ℚ)
    (fitter : TH1 → FitSpec → ℚ → ℚ → TF1Model)
    (pdg : Int) (events : List (List ClustAssoc)) :
    ClustRunResult :=
  let fills := events.flatMap (eneEventFills sqrtQ pdg)
  let hres := (mkTH1 50 (-2) 3).fillAll fills
  let muhist := (stats hres).1
  let rmshist := (stats hres).2.1
  let inthist := (stats hres).2.2
  let fspec := clustFitSpec inthist muhist rmshist
  let fres := fitter hres fspec fspec.lo fspec.hi
  let reso := fres.par 2
  let eres := fres.parError 2
  let mean := fres.par 1
  let emea := fres.parError 1
  ⟨fills, fspec, (fspec.lo, fspec.hi), [reso, eres, mean, emea], fres.par 2⟩

-- shared concrete sample objects for witnesses ---------------------------------

/-- A concrete stand-in for the external angular computation: project the x
component.  Used only to instantiate theorems at concrete inputs. -/
def angleX : Coord → Vec3 → ℚ := fun _ v => v.x

/-- A concrete stand-in for GetMean / GetRMS / Integral. -/
def stats0 : TH1 → ℚ × ℚ × ℚ := fun _ => (0, 0, 0)

/-- A concrete stand-in for a fitted TF1. -/
def tf0 : TF1Model :=
  ⟨fun _ => 0, fun _ => 0, fun _ => 0, fun _ _ _ => 0⟩

/-- A concrete stand-in for the external fitter. -/
def fitter0 : TH1 → FitSpec → ℚ → ℚ → TF1Model := fun _ _ _ _ => tf0

/-- The zero vector, used in concrete instantiations. -/
def v0 : Vec3 := ⟨0, 0, 0⟩

-- small monadic helpers ---------------------------------------------------------

theorem except_bind_ok {ε α β : Type} (a : α) (f : α → Except ε β) :
    (Except.ok a >>= f) = f a := rfl

theorem except_bind_error {ε α β : Type} (e : ε) (f : α → Except ε β) :
    ((Except.error e : Except ε α) >>= f) = Except.error e := rfl

-- general facts about the per-layer scan ---------------------------------------

/-- Invariant of the dictionary state after processing a list of hits without
an uncaught KeyError: maxhits has keys only in 1..6; maxenes mirrors the
energy of the stored hit (0.0 where no hit is stored yet); every stored hit is
a processed hit of its layer with positive energy; and every processed
in-range hit of positive energy is dominated by the stored hit of its
layer. -/
def ScanInv (processed : List Hit) (st : LayerState) : Prop :=
  (∀ l : Int, l < 1 ∨ 6 < l → st.maxhits l = none) ∧
  (∀ l : Int, st.maxenes l = ((st.maxhits l).map Hit.energy).getD 0) ∧
  (∀ l : Int, ∀ h0 : Hit, st.maxhits l = some h0 →
      h0 ∈ processed ∧ h0.layer = l ∧ 0 < h0.energy) ∧
  (∀ h : Hit, h ∈ processed → 1 ≤ h.layer → h.layer ≤ 6 → 0 < h.energy →
      ∃ h0, st.maxhits h.layer = some h0 ∧ h.energy ≤ h0.energy)

theorem scanInv_init : ScanInv [] initLayerState := by
  refine ⟨fun l _ => rfl, fun l => rfl, fun l h0 hsome => by simp [initLayerState] at hsome,
    fun h hmem => by simp at hmem⟩

theorem processHit_inv {pre : List Hit} {st : LayerState} {h : Hit}
    (hinv : ScanInv pre st) (hl : 1 ≤ h.layer) :
    ∃ st2, processHit st h = .ok st2 ∧ ScanInv (pre ++ [h]) st2 := by
  obtain ⟨inv1, inv2, inv3, inv4⟩ := hinv
  by_cases hgt : 6 < h.layer
  · refine ⟨st, by simp [processHit, hgt], inv1, inv2, ?_, ?_⟩
    · intro l h0 hsome
      obtain ⟨hm, hlay, hene⟩ := inv3 l h0 hsome
      exact ⟨List.mem_append_left _ hm, hlay, hene⟩
    · intro h2 hmem h2lo h2hi h2ene
      rcases List.mem_append.1 hmem with hmem | hmem
      · exact inv4 h2 hmem h2lo h2hi h2ene
      · simp at hmem
        subst hmem
        omega
  · have hnlt : ¬ h.layer < 1 := by omega
    by_cases hcmp : st.maxenes h.layer < h.energy
    · -- both dictionaries are updated at h.layer
      refine ⟨⟨Function.update st.maxenes h.layer h.energy,
               Function.update st.maxhits h.layer (some h)⟩,
              by simp [processHit, hgt, hnlt, hcmp], ?_, ?_, ?_, ?_⟩
      · intro l hout
        have hne : h.layer ≠ l := by omega
        simp only [Function.update_noteq (Ne.symm hne)]
        exact inv1 l hout
      · intro l
        by_cases hel : l = h.layer
        · subst hel
          simp [Function.update_same]
        · simp only [Function.update_noteq hel]
          exact inv2 l
      · intro l h0 hsome
        by_cases hel : l = h.layer
        · subst hel
          simp only [Function.update_same] at hsome
          have hpos : 0 < h.energy := by
            have h2 := inv2 h.layer
            rcases hmh : st.maxhits h.layer with _ | hold
            · rw [hmh] at h2
              simp at h2
              rw [h2] at hcmp
              exact hcmp
            · obtain ⟨_, _, holdpos⟩ := inv3 h.layer hold hmh
              rw [hmh] at h2
              simp at h2
              rw [h2] at hcmp
              exact lt_trans holdpos hcmp
          cases hsome
          exact ⟨List.mem_append_right _ (by simp), rfl, hpos⟩
        · simp only [Function.update_noteq hel] at hsome
          obtain ⟨hm, hlay, hene⟩ := inv3 l h0 hsome
          exact ⟨List.mem_append_left _ hm, hlay, hene⟩
      · intro h2 hmem h2lo h2hi h2ene
        rcases List.mem_append.1 hmem with hmem | hmem
        · obtain ⟨h0, hsome, hle⟩ := inv4 h2 hmem h2lo h2hi h2ene
          by_cases hel : h2.layer = h.layer
          · refine ⟨h, by rw [hel]; simp [Function.update_same], ?_⟩
            have h2e := inv2 h.layer
            rw [← hel, hsome] at h2e
            simp at h2e
            rw [← hel] at hcmp
            rw [h2e] at hcmp
            exact le_of_lt (lt_of_le_of_lt hle hcmp)
          · exact ⟨h0, by simp only [Function.update_noteq hel]; exact hsome, hle⟩
        · simp at hmem
          subst hmem
          exact ⟨h2, by simp [Function.update_same], le_refl _⟩
    · -- comparison fails, state unchanged
      refine ⟨st, by simp [processHit, hgt, hnlt, hcmp], inv1, inv2, ?_, ?_⟩
      · intro l h0 hsome
        obtain ⟨hm, hlay, hene⟩ := inv3 l h0 hsome
        exact ⟨List.mem_append_left _ hm, hlay, hene⟩
      · intro h2 hmem h2lo h2hi h2ene
        rcases List.mem_append.1 hmem with hmem | hmem
        · exact inv4 h2 hmem h2lo h2hi h2ene
        · simp at hmem
          subst hmem
          have h2e := inv2 h2.layer
          rcases hmh : st.maxhits h2.layer with _ | hold
          · rw [hmh] at h2e
            simp at h2e
            rw [h2e] at hcmp
            exact absurd h2ene hcmp
          · refine ⟨hold, hmh ▸ rfl, ?_⟩
            rw [hmh] at h2e
            simp at h2e
            rw [h2e] at hcmp
            exact le_of_not_lt hcmp

theorem processHits_inv_aux :
    ∀ (hits : List Hit) (st : LayerState) (pre : List Hit),
      ScanInv pre st → (∀ h ∈ hits, 1 ≤ h.layer) →
      ∃ st2, hits.foldlM processHit st = .ok st2 ∧ ScanInv (pre ++ hits) st2
  | [], st, pre, hinv, _ => ⟨st, rfl, by simpa using hinv⟩
  | h :: t, st, pre, hinv, hall => by
    obtain ⟨st1, hstep, hinv1⟩ := processHit_inv hinv (hall h (by simp))
    obtain ⟨st2, hfold, hinv2⟩ :=
      processHits_inv_aux t st1 (pre ++ [h]) hinv1 (fun x hx => hall x (by simp [hx]))
    refine ⟨st2, ?_, by simpa using hinv2⟩
    simp only [List.foldlM, hstep, except_bind_ok]
    exact hfold

/-- Processing a list of hits whose layers are all at least 1 never raises,
and the final dictionary state satisfies the scan invariant. -/
theorem processHits_inv {hits : List Hit} (hall : ∀ h ∈ hits, 1 ≤ h.layer) :
    ∃ st, processHits hits = .ok st ∧ ScanInv hits st := by
  obtain ⟨st, hfold, hinv⟩ := processHits_inv_aux hits initLayerState [] scanInv_init hall
  exact ⟨st, hfold, by simpa using hinv⟩

-- facts about min(maxhits.keys()) ----------------------------------------------

theorem firstPopFrom_spec {st : LayerState} :
    ∀ {ls : List Int} {l : Int} {h0 : Hit},
      ls.Pairwise (· < ·) → firstPopFrom st ls = some (l, h0) →
      st.maxhits l = some h0 ∧ l ∈ ls ∧
        ∀ l2 ∈ ls, l2 < l → st.maxhits l2 = none := by
  intro ls
  induction ls with
  | nil => intro l h0 _ h; simp [firstPopFrom] at h
  | cons x xs ih =>
    intro l h0 hpw h
    rw [List.pairwise_cons] at hpw
    rw [firstPopFrom] at h
    rcases e : st.maxhits x with _ | hx <;> rw [e] at h
    · obtain ⟨hval, hmem, hmin⟩ := ih hpw.2 h
      refine ⟨hval, List.mem_cons_of_mem _ hmem, ?_⟩
      intro l2 hl2 hlt
      rcases List.mem_cons.1 hl2 with rfl | hl2
      · exact e
      · exact hmin l2 hl2 hlt
    · simp only [Option.some.injEq, Prod.mk.injEq] at h
      obtain ⟨rfl, rfl⟩ := h
      refine ⟨e, List.mem_cons_self _ _, ?_⟩
      intro l2 hl2 hlt
      rcases List.mem_cons.1 hl2 with rfl | hl2
      · omega
      · exact absurd hlt (by have := hpw.1 l2 hl2; omega)

theorem firstPopFrom_none {st : LayerState} :
    ∀ {ls : List Int}, firstPopFrom st ls = none →
      ∀ l ∈ ls, st.maxhits l = none := by
  intro ls
  induction ls with
  | nil => intro _ l hl; simp at hl
  | cons x xs ih =>
    intro h l hl
    rw [firstPopFrom] at h
    rcases e : st.maxhits x with _ | hx <;> rw [e] at h
    · rcases List.mem_cons.1 hl with rfl | hl
      · exact e
      · exact ih h l hl
    · exact absurd h (by simp)

theorem minPopLayer_spec {st : LayerState} {l : Int} {h0 : Hit}
    (h : minPopLayer st = some (l, h0)) :
    st.maxhits l = some h0 ∧ 1 ≤ l ∧ l ≤ 6 ∧
      ∀ l2, 1 ≤ l2 → l2 < l → st.maxhits l2 = none := by
  obtain ⟨hval, hmem, hmin⟩ := firstPopFrom_spec (by decide) h
  simp at hmem
  refine ⟨hval, by omega, by omega, ?_⟩
  intro l2 hlo hlt
  exact hmin l2 (by simp; omega) hlt

theorem minPopLayer_eq_none {st : LayerState}
    (h : minPopLayer st = none) :
    ∀ l, 1 ≤ l → l ≤ 6 → st.maxhits l = none := by
  intro l hlo hhi
  exact firstPopFrom_none h l (by simp; omega)

-- hits above layer 6 are invisible to the scan ----------------------------------

theorem foldlM_processHit_filter :
    ∀ (hits : List Hit) (st : LayerState),
      (hits.filter (fun h => decide (h.layer ≤ 6))).foldlM processHit st =
        hits.foldlM processHit st
  | [], _ => rfl
  | h :: t, st => by
    by_cases hle : h.layer ≤ 6
    · rw [List.filter_cons_of_pos (by simpa using hle)]
      show ((h :: (t.filter _)).foldlM processHit st) = _
      simp only [List.foldlM]
      rcases e : processHit st h with msg | st1
      · rfl
      · simp only [except_bind_ok]
        exact foldlM_processHit_filter t st1
    · rw [List.filter_cons_of_neg (by simpa using hle)]
      have hskip : processHit st h = .ok st := by
        simp [processHit, show 6 < h.layer by omega]
      simp only [List.foldlM, hskip, except_bind_ok]
      exact foldlM_processHit_filter t st

/-- Layer-above-6 immunity at the selection level: the representative hit is
unchanged when every hit with layer above 6 is removed from the input. -/
theorem selectRepresentative_filter (hits : List Hit) :
    selectRepresentative (hits.filter (fun h => decide (h.layer ≤ 6))) =
      selectRepresentative hits := by
  unfold selectRepresentative processHits
  rw [foldlM_processHit_filter]

-- claim C1 ----------------------------------------------------------------------

/-- Layer l is populated in the sense actually implemented by the scan: it is
in range 1..6 and some hit of the list lies in it with strictly positive
energy (the per-layer maxima start at 0.0 and only a strictly greater energy
is recorded). -/
def popLayer (hits : List Hit) (l : Int) : Prop :=
  1 ≤ l ∧ l ≤ 6 ∧ ∃ h ∈ hits, h.layer = l ∧ 0 < h.energy

/-- C1, counterexample to the claim as stated: with a zero-energy hit in
layer 1 and a positive-energy hit in layer 2, layer 1 is populated (it holds a
hit, and 1 is the smallest populated layer index in the claim's sense), yet
CalculateHitAngReso selects the layer-2 hit, because a hit whose energy does
not strictly exceed the 0.0 initialization of maxenes is never recorded. -/
theorem C1_counterexample :
    selectRepresentative [⟨0, 1, 0, v0⟩, ⟨1, 2, 5, v0⟩] = .ok ⟨1, 2, 5, v0⟩ := rfl

/-- C1, amended: hits with layer index above 6 never affect the selection
(first conjunct), and whenever all layers are at least 1 (so that the scan
does not raise KeyError) and some layer in 1..6 holds a hit of strictly
positive energy, the representative hit is a highest-energy hit of the
numerically smallest layer populated by positive-energy hits. -/
theorem C1_hit_selection :
    (∀ hits : List Hit,
      selectRepresentative (hits.filter (fun h => decide (h.layer ≤ 6))) =
        selectRepresentative hits) ∧
    (∀ hits : List Hit,
      (∀ h ∈ hits, 1 ≤ h.layer) → (∃ l, popLayer hits l) →
      ∃ hrep, selectRepresentative hits = .ok hrep ∧ hrep ∈ hits ∧
        popLayer hits hrep.layer ∧
        (∀ l, popLayer hits l → hrep.layer ≤ l) ∧
        (∀ h2 ∈ hits, h2.layer = hrep.layer → h2.energy ≤ hrep.energy)) := by
  refine ⟨selectRepresentative_filter, ?_⟩
  intro hits hall hpop
  obtain ⟨st, hok, hinv⟩ := processHits_inv hall
  obtain ⟨inv1, inv2, inv3, inv4⟩ := hinv
  obtain ⟨l0, hl0lo, hl0hi, x, hxmem, hxlay, hxene⟩ := hpop
  have hx0 : ∃ h0, st.maxhits x.layer = some h0 ∧ x.energy ≤ h0.energy :=
    inv4 x hxmem (by omega) (by omega) hxene
  obtain ⟨x0, hx0some, _⟩ := hx0
  rcases e : minPopLayer st with _ | lh
  · exact absurd hx0some (by
      rw [minPopLayer_eq_none e x.layer (by omega) (by omega)]
      simp)
  · obtain ⟨l, hrep⟩ := lh
    obtain ⟨hval, hllo, hlhi, hmin⟩ := minPopLayer_spec e
    obtain ⟨hrmem, hrlay, hrene⟩ := inv3 l hrep hval
    refine ⟨hrep, ?_, hrmem, ?_, ?_, ?_⟩
    · unfold selectRepresentative
      rw [show processHits hits = .ok st from hok, except_bind_ok]
      rw [e]
    · exact ⟨by omega, by omega, hrep, hrmem, rfl, hrene⟩
    · intro l2 hl2
      obtain ⟨hl2lo, hl2hi, y, hymem, hylay, hyene⟩ := hl2
      obtain ⟨y0, hy0some, _⟩ := inv4 y hymem (by omega) (by omega) hyene
      by_contra hlt
      rw [hrlay] at hlt
      have hnone : st.maxhits y.layer = none := hmin y.layer (by omega) (by omega)
      rw [hnone] at hy0some
      cases hy0some
    · intro h2 hmem2 hlay2
      by_cases hpos : 0 < h2.energy
      · obtain ⟨h0, hsome0, hle0⟩ :=
          inv4 h2 hmem2 (by rw [hlay2, hrlay]; omega) (by rw [hlay2, hrlay]; omega) hpos
        rw [hlay2, hrlay, hval] at hsome0
        cases hsome0
        exact hle0
      · exact le_trans (le_of_not_lt hpos) (le_of_lt hrene)

/-- A concrete multi-layer, multi-energy hit set with an above-maximum layer
present, used to instantiate C1. -/
def hitsW : List Hit :=
  [⟨0, 2, 3, v0⟩, ⟨1, 1, 5, v0⟩, ⟨2, 1, 2, v0⟩, ⟨3, 7, 9, v0⟩]

/-- C1, witness: on the concrete hit set the selection picks the
highest-energy hit of layer 1 with all the stated properties. -/
theorem C1_witness :
    ∃ hrep, selectRepresentative hitsW = .ok hrep ∧
      hrep ∈ hitsW ∧
      popLayer hitsW hrep.layer ∧
      (∀ l, popLayer hitsW l → hrep.layer ≤ l) ∧
      (∀ h2 ∈ hitsW, h2.layer = hrep.layer → h2.energy ≤ hrep.energy) :=
  C1_hit_selection.2 hitsW (by decide)
    ⟨1, by norm_num, by norm_num, ⟨1, 1, 5, v0⟩, by simp [hitsW], rfl, by norm_num⟩

-- shared counting lemmas for the cluster scripts --------------------------------

theorem clustEventFills_length (angleOf : Vec3 → ℚ) (pdg : Int) :
    ∀ assocs : List ClustAssoc,
      (clustEventFills angleOf pdg assocs).length =
        (assocs.filter (fun a => decide (a.sim.pdg = pdg))).length
  | [] => rfl
  | a :: t => by
    by_cases hp : a.sim.pdg = pdg
    · simp only [clustEventFills, List.filterMap_cons, List.filter_cons, hp,
        decide_True, processClustAssoc, if_pos hp]
      simpa [clustEventFills] using clustEventFills_length angleOf pdg t
    · simp only [clustEventFills, List.filterMap_cons, List.filter_cons, hp,
        decide_False, processClustAssoc, if_neg hp]
      simpa [clustEventFills] using clustEventFills_length angleOf pdg t

theorem eneEventFills_length (sqrtQ : ℚ → ℚ) (pdg : Int) :
    ∀ assocs : List ClustAssoc,
      (eneEventFills sqrtQ pdg assocs).length =
        (assocs.filter (fun a => decide (a.sim.pdg = pdg))).length
  | [] => rfl
  | a :: t => by
    by_cases hp : a.sim.pdg = pdg
    · simp only [eneEventFills, List.filterMap_cons, List.filter_cons, hp,
        decide_True, processEneAssoc, if_pos hp]
      simpa [eneEventFills] using eneEventFills_length sqrtQ pdg t
    · simp only [eneEventFills, List.filterMap_cons, List.filter_cons, hp,
        decide_False, processEneAssoc, if_neg hp]
      simpa [eneEventFills] using eneEventFills_length sqrtQ pdg t

-- claim C2 ----------------------------------------------------------------------

/-- C2, counterexample to the claim as stated: an event whose only truth
particle has the target species code 11 but generator status 2 (not
final-state).  The hit script's primary selection indeed finds nothing, but
the cluster-based variant still fills one residual entry, because it selects
associations by species code alone and never consults the generator status
(and it prints no warning). -/
theorem C2_counterexample :
    findPrimary 11 [⟨0, 11, 2, 0, 0, ⟨1, 0, 0⟩, v0⟩] = none ∧
    (clustEventFills (angleX Coord.phi) 11
      [⟨⟨0, 11, 2, 0, 0, ⟨1, 0, 0⟩, v0⟩, ⟨0, ⟨1, 0, 0⟩, []⟩⟩]).length = 1 :=
  ⟨rfl, rfl⟩

/-- C2, amended: when no truth particle has both the target species code and
final-state status, the hit-based variant contributes zero entries and prints
the missing-primary warning; the cluster-based variants select by species
code only, so their per-event entry count equals the number of associations
whose truth particle matches the species code, regardless of generator
status, and they print no warning. -/
theorem C2_no_final_state :
    (∀ (angleOf : Vec3 → ℚ) (pdg : Int) (ev : HitEvent),
      (∀ p ∈ ev.mcpars, ¬ (p.pdg = pdg ∧ p.status = 1)) →
      processHitEvent angleOf pdg ev = .ok ([], [Warn.noPrimary])) ∧
    (∀ (angleOf : Vec3 → ℚ) (pdg : Int) (assocs : List ClustAssoc),
      (clustEventFills angleOf pdg assocs).length =
        (assocs.filter (fun a => decide (a.sim.pdg = pdg))).length) ∧
    (∀ (sqrtQ : ℚ → ℚ) (pdg : Int) (assocs : List ClustAssoc),
      (eneEventFills sqrtQ pdg assocs).length =
        (assocs.filter (fun a => decide (a.sim.pdg = pdg))).length) := by
  refine ⟨?_, clustEventFills_length, eneEventFills_length⟩
  intro angleOf pdg ev h
  have hfp : findPrimary pdg ev.mcpars = none := by
    unfold findPrimary
    rw [List.find?_eq_none]
    intro p hp
    have hnp := h p hp
    simp only [Bool.and_eq_true, beq_iff_eq]
    tauto
  unfold processHitEvent
  rw [hfp]

/-- C2, witness: a concrete event with a species-11, status-2 particle makes
the hit script contribute nothing and warn. -/
theorem C2_witness :
    processHitEvent (angleX Coord.eta) 11
      ⟨[⟨0, 11, 2, 0, 0, ⟨1, 0, 0⟩, v0⟩], []⟩ = .ok ([], [Warn.noPrimary]) :=
  C2_no_final_state.1 (angleX Coord.eta) 11 _ (by decide)

-- claim C3 ----------------------------------------------------------------------

/-- C3: an event with a matched association whose only hit sits in layer 7
leaves both per-layer dictionaries empty, and the script then evaluates
min(maxhits.keys()) on an empty collection: the event is not skipped, the run
aborts with an uncaught ValueError, both at the event level and for the whole
run (which therefore writes no output at all). -/
theorem C3_all_layers_above_max_aborts :
    processHitEvent (angleX Coord.eta) 11
      ⟨[⟨0, 11, 1, 0, 5, ⟨1, 0, 0⟩, v0⟩], [⟨0, ⟨5, v0, [⟨0, 7, 1, v0⟩]⟩⟩]⟩ =
      .error "ValueError" ∧
    CalculateHitAngReso angleX stats0 fitter0 "eta" 11
      [⟨[⟨0, 11, 1, 0, 5, ⟨1, 0, 0⟩, v0⟩], [⟨0, ⟨5, v0, [⟨0, 7, 1, v0⟩]⟩⟩]⟩] =
      .error "ValueError" :=
  ⟨rfl, by with_unfolding_all rfl⟩

-- claim C4 ----------------------------------------------------------------------

theorem processHitEvent_fills_le (angleOf : Vec3 → ℚ) (pdg : Int) (ev : HitEvent)
    (r : List ℚ × List Warn) (h : processHitEvent angleOf pdg ev = .ok r) :
    r.1.length ≤ 1 := by
  unfold processHitEvent at h
  rcases e : findPrimary pdg ev.mcpars with _ | primary <;> rw [e] at h
  · cases h
    simp
  · rcases hm : (ev.assocs.filter (fun a => a.simId == primary.pid)).isEmpty
      <;> simp only [hm, Bool.false_eq_true, if_true, if_false] at h
    · rcases es : selectRepresentative (eventHitList primary ev.assocs)
        with msg | hh <;> rw [es] at h
      · rw [except_bind_error] at h
        cases h
      · rw [except_bind_ok] at h
        cases h
        simp
    · cases h
      simp

/-- C4, counterexample to the claim as stated: one event holding two
associations whose truth particle matches the species code makes the
cluster-based variant fill two residual entries, more than one for that
event. -/
theorem C4_counterexample :
    (clustEventFills (angleX Coord.phi) 11
      [⟨⟨0, 11, 1, 0, 0, ⟨1, 0, 0⟩, v0⟩, ⟨0, ⟨3, 0, 0⟩, []⟩⟩,
       ⟨⟨0, 11, 1, 0, 0, ⟨1, 0, 0⟩, v0⟩, ⟨0, ⟨3, 0, 0⟩, []⟩⟩]).length = 2 := rfl

/-- C4, amended: the hit-based variant contributes at most one entry per event
(its accumulated total is bounded by the number of events processed), while
the cluster-based variants contribute one entry per species-matching
association, so their totals are bounded by the number of associations, not by
the number of events. -/
theorem C4_entry_bounds :
    (∀ (angleOf : Vec3 → ℚ) (pdg : Int) (events : List HitEvent),
      runHitEntries angleOf pdg events ≤ events.length) ∧
    (∀ (angleOf : Vec3 → ℚ) (pdg : Int) (assocs : List ClustAssoc),
      (clustEventFills angleOf pdg assocs).length ≤ assocs.length) ∧
    (∀ (sqrtQ : ℚ → ℚ) (pdg : Int) (assocs : List ClustAssoc),
      (eneEventFills sqrtQ pdg assocs).length ≤ assocs.length) := by
  refine ⟨?_, ?_, ?_⟩
  · intro angleOf pdg events
    induction events with
    | nil => simp [runHitEntries]
    | cons ev evs ih =>
      rw [runHitEntries]
      rcases e : processHitEvent angleOf pdg ev with msg | r
      · simp
      · have := processHitEvent_fills_le angleOf pdg ev r e
        simp only [List.length_cons]
        omega
  · intro angleOf pdg assocs
    exact List.length_filterMap_le _ _
  · intro sqrtQ pdg assocs
    exact List.length_filterMap_le _ _

-- claim C5 ----------------------------------------------------------------------

/-- C5: for every association accepted by the species filter, the relative
angular residual is computed with denominator clustDenom of the truth angle,
that denominator is never zero, and when the truth angle is exactly zero it
equals the machine-epsilon perturbation. -/
theorem C5_zero_denominator_guard :
    ∀ (angleOf : Vec3 → ℚ) (pdg : Int) (a : ClustAssoc),
      a.sim.pdg = pdg →
      processClustAssoc angleOf pdg a =
        some ((angleOf (Vec3.sub a.reco.position a.sim.vertex) -
          clustDenom (angleOf a.sim.momentum)) / clustDenom (angleOf a.sim.momentum)) ∧
      clustDenom (angleOf a.sim.momentum) ≠ 0 ∧
      (angleOf a.sim.momentum = 0 → clustDenom (angleOf a.sim.momentum) = EPS) := by
  intro angleOf pdg a hp
  refine ⟨by simp [processClustAssoc, hp], ?_, ?_⟩
  · unfold clustDenom
    split
    · next h0 => rw [h0]; norm_num [EPS]
    · next h0 => exact h0
  · intro h0
    simp [clustDenom, h0, EPS]

/-- The association used to instantiate C5: its truth particle has momentum
whose x component (the concrete angle stand-in) is exactly zero. -/
def assocZ : ClustAssoc := ⟨⟨0, 11, 1, 0, 0, v0, v0⟩, ⟨0, ⟨3, 0, 0⟩, []⟩⟩

/-- C5, witness: at a truth angle of exactly zero the denominator is the
machine-epsilon perturbation and is nonzero. -/
theorem C5_witness :
    processClustAssoc (angleX Coord.phi) 11 assocZ =
      some ((angleX Coord.phi (Vec3.sub assocZ.reco.position assocZ.sim.vertex) -
        clustDenom (angleX Coord.phi assocZ.sim.momentum)) /
        clustDenom (angleX Coord.phi assocZ.sim.momentum)) ∧
    clustDenom (angleX Coord.phi assocZ.sim.momentum) ≠ 0 ∧
    (angleX Coord.phi assocZ.sim.momentum = 0 →
      clustDenom (angleX Coord.phi assocZ.sim.momentum) = EPS) :=
  C5_zero_denominator_guard (angleX Coord.phi) 11 assocZ rfl

-- claim C6 ----------------------------------------------------------------------

theorem find?_congr {α : Type} (p q : α → Bool) :
    ∀ l : List α, (∀ x ∈ l, p x = q x) → l.find? p = l.find? q
  | [], _ => rfl
  | x :: xs, h => by
    rw [List.find?_cons, List.find?_cons, h x (by simp)]
    cases hq : q x
    · simp only [hq]
      exact find?_congr p q xs (fun y hy => h y (by simp [hy]))
    · simp only [hq]

theorem mem_binRange {h : TH1} {i : Int} :
    i ∈ h.binRange ↔ 1 ≤ i ∧ i ≤ (h.nbins : Int) := by
  unfold TH1.binRange
  rw [List.mem_map]
  constructor
  · rintro ⟨a, ha, rfl⟩
    rw [List.mem_range] at ha
    omega
  · rintro ⟨h1, h2⟩
    exact ⟨(i - 1).toNat, List.mem_range.2 (by omega), by omega⟩

/-- C6, counterexample to the claim as stated: a concrete cluster-script run
whose only residual lands at 2.0.  The nonzero-population range of its
residual histogram is the bin [2.0, 2.1), yet the fit window the script hands
to ROOT is the fixed TF1 range (-0.5, 0.5) (fit option "r"), which is neither
the nonzero range nor the full histogram domain. -/
theorem C6_counterexample :
    (CalculateClustAngReso angleX stats0 fitter0 "phi" 11
      [[⟨⟨0, 11, 1, 0, 0, ⟨1, 0, 0⟩, v0⟩, ⟨0, ⟨3, 0, 0⟩, []⟩⟩]]).map
        (fun r => (r.fills, r.fitRange)) = .ok ([2], (-(1/2), 1/2)) ∧
    specNonzeroPopRange ((mkTH1 50 (-2) 3).fillAll [2]) = some (2, 21/10) ∧
    ((-(1/2) : ℚ), (1/2 : ℚ)) ≠ ((2 : ℚ), (21/10 : ℚ)) := by
  refine ⟨by with_unfolding_all rfl, by with_unfolding_all rfl, ?_⟩
  intro hcontra
  rw [Prod.mk.injEq] at hcontra
  exact absurd hcontra.1 (by norm_num)

/-- C6, amended: the hit-based variant does fit over the nonzero-population
range (its computed window agrees with the spec-side definition whenever the
histogram is nonnegative and populated, and the window recorded by a
completed run is exactly that of its accumulated histogram), but the two
cluster-based variants fit over the fixed range (-0.5, 0.5) regardless of
where the population lies. -/
theorem C6_fit_window :
    (∀ h : TH1, (∀ i, 0 ≤ h.content i) → (∃ i, h.populatedBin i) →
      specNonzeroPopRange h = some (hitFitRange h)) ∧
    (∀ (angleOf : Coord → Vec3 → ℚ) (stats : TH1 → ℚ × ℚ × ℚ)
        (fitter : TH1 → FitSpec → ℚ → ℚ → TF1Model)
        (coord : String) (pdg : Int) (events : List (List ClustAssoc))
        (r : ClustRunResult),
      CalculateClustAngReso angleOf stats fitter coord pdg events = .ok r →
      r.fitRange = (-(1/2), 1/2)) ∧
    (∀ (sqrtQ : ℚ → ℚ) (stats : TH1 → ℚ × ℚ × ℚ)
        (fitter : TH1 → FitSpec → ℚ → ℚ → TF1Model)
        (pdg : Int) (events : List (List ClustAssoc)),
      (CalculateClustEneReso sqrtQ stats fitter pdg events).fitRange = (-(1/2), 1/2)) ∧
    (∀ (angleOf : Coord → Vec3 → ℚ) (stats : TH1 → ℚ × ℚ × ℚ)
        (fitter : TH1 → FitSpec → ℚ → ℚ → TF1Model)
        (coord : String) (pdg : Int) (events : List HitEvent)
        (r : HitRunResult),
      CalculateHitAngReso angleOf stats fitter coord pdg events = .ok r →
      r.fitRange = hitFitRange ((mkTH1 80 (-(1/5)) (1/5)).fillAll r.fills)) := by
  refine ⟨?_, ?_, ?_, ?_⟩
  · intro h hnn hpop
    obtain ⟨i, hi1, hi2, hi3⟩ := hpop
    have hcong : ∀ x ∈ h.binRange,
        (fun j => decide (h.content j ≠ 0)) x =
          (fun j => decide ((0 : ℚ) < h.content j)) x := by
      intro x _
      simp only [decide_eq_decide]
      constructor
      · intro hne
        exact lt_of_le_of_ne (hnn x) (Ne.symm hne)
      · intro hlt
        exact (ne_of_lt hlt).symm
    have hfwd : h.binRange.find? (fun j => decide (h.content j ≠ 0)) =
        h.binRange.find? (fun j => decide ((0 : ℚ) < h.content j)) :=
      find?_congr _ _ _ hcong
    have hbwd : h.binRange.reverse.find? (fun j => decide (h.content j ≠ 0)) =
        h.binRange.reverse.find? (fun j => decide ((0 : ℚ) < h.content j)) :=
      find?_congr _ _ _ (fun x hx => hcong x (List.mem_reverse.1 hx))
    have hsome1 : (h.binRange.find? (fun j => decide ((0 : ℚ) < h.content j))).isSome := by
      rw [List.find?_isSome]
      exact ⟨i, mem_binRange.2 ⟨hi1, hi2⟩,
        by simpa using lt_of_le_of_ne (hnn i) (Ne.symm hi3)⟩
    have hsome2 : (h.binRange.reverse.find?
        (fun j => decide ((0 : ℚ) < h.content j))).isSome := by
      rw [List.find?_isSome]
      exact ⟨i, List.mem_reverse.2 (mem_binRange.2 ⟨hi1, hi2⟩),
        by simpa using lt_of_le_of_ne (hnn i) (Ne.symm hi3)⟩
    obtain ⟨f, hf⟩ := Option.isSome_iff_exists.1 hsome1
    obtain ⟨lb, hlb⟩ := Option.isSome_iff_exists.1 hsome2
    unfold specNonzeroPopRange hitFitRange TH1.findFirstBinAbove TH1.findLastBinAbove
    rw [hfwd, hbwd, hf, hlb]
  · intro angleOf stats fitter coord pdg events r hrun
    unfold CalculateClustAngReso at hrun
    rcases hp : parseCoordClust coord with msg | c <;> rw [hp] at hrun
    · rw [except_bind_error] at hrun
      cases hrun
    · rw [except_bind_ok] at hrun
      simp only [Except.ok.injEq] at hrun
      rw [← hrun]
      rfl
  · intro sqrtQ stats fitter pdg events
    rfl
  · intro angleOf stats fitter coord pdg events r hrun
    unfold CalculateHitAngReso at hrun
    rcases hp : parseCoordHit coord with msg | c <;> rw [hp] at hrun
    · rw [except_bind_error] at hrun
      cases hrun
    · rw [except_bind_ok] at hrun
      rcases hm : events.mapM (processHitEvent (angleOf c) pdg) with msg | results <;>
        rw [hm] at hrun
      · rw [except_bind_error] at hrun
        cases hrun
      · rw [except_bind_ok] at hrun
        simp only [Except.ok.injEq] at hrun
        rw [← hrun]

/-- A concrete hit-residual histogram with one entry at 0.0 (bin 41). -/
def hW : TH1 := (mkTH1 80 (-(1/5)) (1/5)).fillAll [0]

/-- The outcome of a cluster-script run over an empty event stream with the
concrete stand-in externals. -/
def clustRW : ClustRunResult := ⟨[], clustFitSpec 0 0 0, (-(1/2), 1/2), [0, 0, 0, 0], 0⟩

/-- C6, witness: on a concrete populated histogram the hit-script fit window
is exactly the spec's nonzero-population range, and a concrete cluster run
uses the fixed window. -/
theorem C6_witness :
    specNonzeroPopRange hW = some (hitFitRange hW) ∧
    clustRW.fitRange = (-(1/2), 1/2) := by
  have hc : hW.content = Function.update (fun _ => (0 : ℚ)) 41 1 := by
    with_unfolding_all rfl
  refine ⟨C6_fit_window.1 hW ?_ ⟨41, by norm_num, ?_, ?_⟩,
    C6_fit_window.2.1 angleX stats0 fitter0 "phi" 11 [] clustRW
      (by with_unfolding_all rfl)⟩
  · intro i
    rw [hc]
    rcases eq_or_ne i 41 with rfl | hne
    · rw [Function.update_same]
      norm_num
    · rw [Function.update_noteq hne]
  · rw [show hW.nbins = 80 from by with_unfolding_all rfl]
    norm_num
  · rw [hc, Function.update_same]
    norm_num

-- claim C7 ----------------------------------------------------------------------

/-- C7, counterexample to the claim as stated: the fit model used by a
concrete run of CalculateHitAngReso is the three-parameter single Gaussian
with no parameter limits, which is not a bounded two-Gaussian mixture. -/
theorem C7_counterexample :
    (CalculateHitAngReso angleX stats0 fitter0 "eta" 11 []).map (fun r => r.fitModel) =
      .ok (hitFitSpec 0 0 0) ∧
    ¬ IsTwoGaussBounded 0 0 (hitFitSpec 0 0 0) :=
  ⟨by with_unfolding_all rfl, fun htg => absurd htg.1 (by decide)⟩

/-- C7, amended: every completed run of the hit-based variant hands ROOT the
single-Gaussian model "gaus(0)" seeded with the Integral, GetMean and GetRMS
of its accumulated residual histogram, with exactly three parameters and no
parameter limits, before deriving the FWHM. -/
theorem C7_hit_fit_model :
    ∀ (angleOf : Coord → Vec3 → ℚ) (stats : TH1 → ℚ × ℚ × ℚ)
      (fitter : TH1 → FitSpec → ℚ → ℚ → TF1Model)
      (coord : String) (pdg : Int) (events : List HitEvent) (r : HitRunResult),
      CalculateHitAngReso angleOf stats fitter coord pdg events = .ok r →
      r.fitModel =
        hitFitSpec (stats ((mkTH1 80 (-(1/5)) (1/5)).fillAll r.fills)).2.2
          (stats ((mkTH1 80 (-(1/5)) (1/5)).fillAll r.fills)).1
          (stats ((mkTH1 80 (-(1/5)) (1/5)).fillAll r.fills)).2.1 ∧
      r.fitModel.formula = "gaus(0)" ∧
      r.fitModel.seeds.length = 3 ∧
      r.fitModel.limits = [] := by
  intro angleOf stats fitter coord pdg events r hrun
  unfold CalculateHitAngReso at hrun
  rcases hp : parseCoordHit coord with msg | c <;> rw [hp] at hrun
  · rw [except_bind_error] at hrun
    cases hrun
  · rw [except_bind_ok] at hrun
    rcases hm : events.mapM (processHitEvent (angleOf c) pdg) with msg | results <;>
      rw [hm] at hrun
    · rw [except_bind_error] at hrun
      cases hrun
    · rw [except_bind_ok] at hrun
      simp only [Except.ok.injEq] at hrun
      rw [← hrun]
      exact ⟨rfl, rfl, rfl, rfl⟩

/-- The outcome of a hit-script run over an empty event stream with the
concrete stand-in externals. -/
def hitRW : HitRunResult :=
  ⟨[], [], hitFitSpec 0 0 0, (-(21/100), -(41/200)), [0], 0⟩

/-- C7, witness: the concrete run uses the single-Gaussian model with the
stated seeds and no limits. -/
theorem C7_witness :
    hitRW.fitModel =
      hitFitSpec (stats0 ((mkTH1 80 (-(1/5)) (1/5)).fillAll hitRW.fills)).2.2
        (stats0 ((mkTH1 80 (-(1/5)) (1/5)).fillAll hitRW.fills)).1
        (stats0 ((mkTH1 80 (-(1/5)) (1/5)).fillAll hitRW.fills)).2.1 ∧
    hitRW.fitModel.formula = "gaus(0)" ∧
    hitRW.fitModel.seeds.length = 3 ∧
    hitRW.fitModel.limits = [] :=
  C7_hit_fit_model angleX stats0 fitter0 "eta" 11 [] hitRW (by with_unfolding_all rfl)

-- claim C8 ----------------------------------------------------------------------

/-- C8: a coordinate selector whose lower-cased form is outside the accepted
set makes both coordinate-taking scripts raise the ValueError immediately: the
whole run is the error, for every event stream, independently of its content,
so no event is read, nothing is accumulated and nothing is written. -/
theorem C8_bad_coordinate_fatal :
    (∀ (angleOf : Coord → Vec3 → ℚ) (stats : TH1 → ℚ × ℚ × ℚ)
        (fitter : TH1 → FitSpec → ℚ → ℚ → TF1Model)
        (coord : String) (pdg : Int) (events : List HitEvent),
      coord.toLower ∉ (["theta", "eta", "phi"] : List String) →
      CalculateHitAngReso angleOf stats fitter coord pdg events =
        .error "ValueError: Unknown coordinate specified!") ∧
    (∀ (angleOf : Coord → Vec3 → ℚ) (stats : TH1 → ℚ × ℚ × ℚ)
        (fitter : TH1 → FitSpec → ℚ → ℚ → TF1Model)
        (coord : String) (pdg : Int) (events : List (List ClustAssoc)),
      coord.toLower ∉ (["eta", "phi"] : List String) →
      CalculateClustAngReso angleOf stats fitter coord pdg events =
        .error "ValueError: Unknown coordinate specified!") := by
  constructor
  · intro angleOf stats fitter coord pdg events hmem
    simp only [List.mem_cons, List.not_mem_nil, or_false, not_or] at hmem
    obtain ⟨h1, h2, h3⟩ := hmem
    have hp : parseCoordHit coord = .error "ValueError: Unknown coordinate specified!" := by
      unfold parseCoordHit
      split
      · next heq => exact absurd heq h1
      · next heq => exact absurd heq h2
      · next heq => exact absurd heq h3
      · rfl
    unfold CalculateHitAngReso
    rw [hp, except_bind_error]
  · intro angleOf stats fitter coord pdg events hmem
    simp only [List.mem_cons, List.not_mem_nil, or_false, not_or] at hmem
    obtain ⟨h1, h2⟩ := hmem
    have hp : parseCoordClust coord = .error "ValueError: Unknown coordinate specified!" := by
      unfold parseCoordClust
      split
      · next heq => exact absurd heq h1
      · next heq => exact absurd heq h2
      · rfl
    unfold CalculateClustAngReso
    rw [hp, except_bind_error]

/-- C8, witness: the hit script rejects the selector xyz, and the cluster
script rejects theta (accepted only by the hit script). -/
theorem C8_witness :
    CalculateHitAngReso angleX stats0 fitter0 "xyz" 11 [] =
      .error "ValueError: Unknown coordinate specified!" ∧
    CalculateClustAngReso angleX stats0 fitter0 "theta" 11 [] =
      .error "ValueError: Unknown coordinate specified!" := by
  refine ⟨C8_bad_coordinate_fatal.1 angleX stats0 fitter0 "xyz" 11 [] ?_,
    C8_bad_coordinate_fatal.2 angleX stats0 fitter0 "theta" 11 [] ?_⟩
  · rw [show "xyz".toLower = "xyz" from by with_unfolding_all rfl]
    decide
  · rw [show "theta".toLower = "theta" from by with_unfolding_all rfl]
    decide

-- claim C9 ----------------------------------------------------------------------

/-- C9: for every completed run, the first value written to the text summary
equals the value returned by the function; the hit (FWHM-policy) script
writes exactly that single value, and the two cluster (sigma-policy) scripts
write four values (sigma, its error, the fitted mean, its error). -/
theorem C9_text_summary_roundtrip :
    (∀ (angleOf : Coord → Vec3 → ℚ) (stats : TH1 → ℚ × ℚ × ℚ)
        (fitter : TH1 → FitSpec → ℚ → ℚ → TF1Model)
        (coord : String) (pdg : Int) (events : List HitEvent) (r : HitRunResult),
      CalculateHitAngReso angleOf stats fitter coord pdg events = .ok r →
      r.textLines = [r.returned]) ∧
    (∀ (angleOf : Coord → Vec3 → ℚ) (stats : TH1 → ℚ × ℚ × ℚ)
        (fitter : TH1 → FitSpec → ℚ → ℚ → TF1Model)
        (coord : String) (pdg : Int) (events : List (List ClustAssoc))
        (r : ClustRunResult),
      CalculateClustAngReso angleOf stats fitter coord pdg events = .ok r →
      r.textLines.head? = some r.returned ∧ r.textLines.length = 4) ∧
    (∀ (sqrtQ : ℚ → ℚ) (stats : TH1 → ℚ × ℚ × ℚ)
        (fitter : TH1 → FitSpec → ℚ → ℚ → TF1Model)
        (pdg : Int) (events : List (List ClustAssoc)),
      (CalculateClustEneReso sqrtQ stats fitter pdg events).textLines.head? =
        some (CalculateClustEneReso sqrtQ stats fitter pdg events).returned ∧
      (CalculateClustEneReso sqrtQ stats fitter pdg events).textLines.length = 4) := by
  refine ⟨?_, ?_, ?_⟩
  · intro angleOf stats fitter coord pdg events r hrun
    unfold CalculateHitAngReso at hrun
    rcases hp : parseCoordHit coord with msg | c <;> rw [hp] at hrun
    · rw [except_bind_error] at hrun
      cases hrun
    · rw [except_bind_ok] at hrun
      rcases hm : events.mapM (processHitEvent (angleOf c) pdg) with msg | results <;>
        rw [hm] at hrun
      · rw [except_bind_error] at hrun
        cases hrun
      · rw [except_bind_ok] at hrun
        simp only [Except.ok.injEq] at hrun
        rw [← hrun]
  · intro angleOf stats fitter coord pdg events r hrun
    unfold CalculateClustAngReso at hrun
    rcases hp : parseCoordClust coord with msg | c <;> rw [hp] at hrun
    · rw [except_bind_error] at hrun
      cases hrun
    · rw [except_bind_ok] at hrun
      simp only [Except.ok.injEq] at hrun
      rw [← hrun]
      exact ⟨rfl, rfl⟩
  · intro sqrtQ stats fitter pdg events
    exact ⟨rfl, rfl⟩

/-- C9, witness: on concrete runs the hit file holds exactly the returned
FWHM and the cluster file's first of four values is the returned sigma. -/
theorem C9_witness :
    hitRW.textLines = [hitRW.returned] ∧
    (clustRW.textLines.head? = some clustRW.returned ∧ clustRW.textLines.length = 4) :=
  ⟨C9_text_summary_roundtrip.1 angleX stats0 fitter0 "eta" 11 [] hitRW
      (by with_unfolding_all rfl),
    C9_text_summary_roundtrip.2.1 angleX stats0 fitter0 "phi" 11 [] clustRW
      (by with_unfolding_all rfl)⟩

-- claim C10 ---------------------------------------------------------------------

/-- C10: the layer guard only rejects layers above 6.  Any hit with layer at
most 6 but below 1 reaches the maxenes lookup, whose key set is 1..6, and
raises an uncaught KeyError from any dictionary state; a concrete run whose
matched association holds a layer-0 hit aborts with that KeyError instead of
warning and continuing. -/
theorem C10_layer_guard_gap :
    (∀ (st : LayerState) (h : Hit), h.layer ≤ 6 → h.layer < 1 →
      processHit st h = .error "KeyError") ∧
    CalculateHitAngReso angleX stats0 fitter0 "eta" 11
      [⟨[⟨0, 11, 1, 0, 5, ⟨1, 0, 0⟩, v0⟩], [⟨0, ⟨5, v0, [⟨0, 0, 1, v0⟩]⟩⟩]⟩] =
      .error "KeyError" := by
  refine ⟨?_, by with_unfolding_all rfl⟩
  intro st h h6 h1
  simp [processHit, show ¬ 6 < h.layer by omega, h1]

/-- C10, witness: a layer-0 hit raises KeyError from the initial dictionary
state. -/
theorem C10_witness :
    processHit initLayerState ⟨0, 0, 1, v0⟩ = .error "KeyError" :=
  C10_layer_guard_gap.1 initLayerState ⟨0, 0, 1, v0⟩ (by decide) (by decide)

end BICMOBO
